import Mathlib

/-!
Verification of the iopipe profiler plugin (src/index.js).

The development shallowly embeds the plugin's post-invoke upload pipeline,
its archive entry counting, its heap-snapshot streaming handlers, its CPU
profile capture, its signed-url client and its post-report teardown, and
proves or refutes the specification's claims about them.

External collaborators (the Node inspector session, the archiver library,
the HTTP request helper) are modelled by their documented contracts at the
exact points the source uses them; every plugin-side definition is a direct
translation of the corresponding lines of src/index.js.
-/

namespace Profiler

/-! ## A small JSON model

The source calls `JSON.stringify` and `JSON.parse` (src/index.js lines 131
and 182).  We model JSON values with an inductive type, serialization as in
`JSON.stringify`, and a fuel-indexed recursive-descent parser for
whitespace-free documents whose strings contain no escape sequences (the
only documents the pipeline produces or consumes). -/

inductive Json where
  | null : Json
  | bool (b : Bool) : Json
  | num (n : Int) : Json
  | str (s : String) : Json
  | arr (items : List Json) : Json
  | obj (fields : List (String × Json)) : Json

/-- The double-quote character. -/
def quoteChar : Char := Char.ofNat 34

/-- Opening brace character. -/
def lbraceChar : Char := Char.ofNat 123

/-- Closing brace character. -/
def rbraceChar : Char := Char.ofNat 125

mutual

/-- Serialization, as `JSON.stringify` renders the values this plugin
produces (no escape sequences are introduced because no payload contains
characters needing them). -/
def jsonStringify : Json → String
  | .null => "null"
  | .bool true => "true"
  | .bool false => "false"
  | .num n => toString n
  | .str s => "\"" ++ s ++ "\""
  | .arr items => "[" ++ stringifyItems items ++ "]"
  | .obj fields => "\x7b" ++ stringifyFields fields ++ "\x7d"

/-- Comma-separated serialization of array elements. -/
def stringifyItems : List Json → String
  | [] => ""
  | [x] => jsonStringify x
  | x :: y :: xs => jsonStringify x ++ "," ++ stringifyItems (y :: xs)

/-- Comma-separated serialization of object fields. -/
def stringifyFields : List (String × Json) → String
  | [] => ""
  | [(k, v)] => "\"" ++ k ++ "\":" ++ jsonStringify v
  | (k, v) :: y :: xs =>
    "\"" ++ k ++ "\":" ++ jsonStringify v ++ "," ++ stringifyFields (y :: xs)

end

/-- Reads a string body up to the closing quote; no escape handling. -/
def parseStrBody : List Char → Option (String × List Char)
  | [] => none
  | c :: rest =>
    if c = quoteChar then some ("", rest)
    else
      match parseStrBody rest with
      | some (s, r) => some (String.mk (c :: s.data), r)
      | none => none

/-- Splits a leading run of decimal digits from the rest. -/
def takeDigits : List Char → List Char × List Char
  | [] => ([], [])
  | c :: rest =>
    if c.isDigit then
      let (ds, r) := takeDigits rest
      (c :: ds, r)
    else ([], c :: rest)

/-- Folds decimal digits into a number. -/
def digitsToNat (acc : Nat) : List Char → Nat
  | [] => acc
  | c :: rest => digitsToNat (acc * 10 + (c.toNat - 48)) rest

mutual

/-- Parses one JSON value from the character stream; `fuel` bounds the
nesting depth. -/
def parseVal : Nat → List Char → Option (Json × List Char)
  | 0, _ => none
  | _ + 1, [] => none
  | fuel + 1, c :: rest =>
    if c = quoteChar then
      match parseStrBody rest with
      | some (s, r) => some (.str s, r)
      | none => none
    else if c = lbraceChar then
      match rest with
      | r0 :: r =>
        if r0 = rbraceChar then some (.obj [], r)
        else
          match parseFields fuel (r0 :: r) with
          | some (fs, r2) => some (.obj fs, r2)
          | none => none
      | [] => none
    else if c = '[' then
      match rest with
      | ']' :: r => some (.arr [], r)
      | _ =>
        match parseItems fuel rest with
        | some (vs, r2) => some (.arr vs, r2)
        | none => none
    else if c = 'n' then
      match rest with
      | 'u' :: 'l' :: 'l' :: r => some (.null, r)
      | _ => none
    else if c = 't' then
      match rest with
      | 'r' :: 'u' :: 'e' :: r => some (.bool true, r)
      | _ => none
    else if c = 'f' then
      match rest with
      | 'a' :: 'l' :: 's' :: 'e' :: r => some (.bool false, r)
      | _ => none
    else if c = '-' then
      match takeDigits rest with
      | ([], _) => none
      | (d :: ds, r) => some (.num (-(digitsToNat 0 (d :: ds) : Int)), r)
    else if c.isDigit then
      match takeDigits (c :: rest) with
      | (ds, r) => some (.num (digitsToNat 0 ds), r)
    else none

/-- Parses one or more comma-separated array items, consuming the closing
bracket. -/
def parseItems : Nat → List Char → Option (List Json × List Char)
  | 0, _ => none
  | fuel + 1, cs =>
    match parseVal fuel cs with
    | none => none
    | some (v, r) =>
      match r with
      | ',' :: r2 =>
        match parseItems fuel r2 with
        | some (vs, r3) => some (v :: vs, r3)
        | none => none
      | ']' :: r2 => some ([v], r2)
      | _ => none

/-- Parses one or more comma-separated object fields, consuming the closing
brace. -/
def parseFields : Nat → List Char → Option (List (String × Json) × List Char)
  | 0, _ => none
  | fuel + 1, cs =>
    match cs with
    | c :: rest =>
      if c = quoteChar then
        match parseStrBody rest with
        | some (k, r) =>
          match r with
          | ':' :: r2 =>
            match parseVal fuel r2 with
            | none => none
            | some (v, r3) =>
              match r3 with
              | ',' :: r4 =>
                match parseFields fuel r4 with
                | some (fs, r5) => some ((k, v) :: fs, r5)
                | none => none
              | r30 :: r4 =>
                if r30 = rbraceChar then some ([(k, v)], r4) else none
              | [] => none
          | _ => none
        | none => none
      else none
    | [] => none

end

/-- Entry point modelling `JSON.parse`: the whole input must be consumed. -/
def jsonParse (s : String) : Option Json :=
  match parseVal (s.length + 1) s.data with
  | some (v, []) => some v
  | _ => none

/-- JavaScript property access `response.key` on a parsed JSON value;
`Json.null` also stands for `undefined` when the key is missing or the
value is not an object. -/
def jsonGet (j : Json) (key : String) : Json :=
  match j with
  | .obj fields =>
    match fields.find? (fun kv => kv.1 == key) with
    | some kv => kv.2
    | none => .null
  | _ => .null

/-! ## Plugin state (src/index.js lines 22–62)

The constructor resolves the two capture flags, sets
`enabled = profilerEnabled || heapsnapshotEnabled`, and initializes the
`uploads` list to empty.  The `meta` accessor exposes `enabled` and
`uploads` (the name/version/homepage strings are constants read from
package.json and carry no behaviour). -/

structure Plugin where
  profilerEnabled : Bool
  heapsnapshotEnabled : Bool
  uploads : List Json

/-- The constructor state of a fresh plugin (line 36: `this.uploads = []`). -/
def mkPlugin (profilerEnabled heapsnapshotEnabled : Bool) : Plugin :=
  ⟨profilerEnabled, heapsnapshotEnabled, []⟩

/-- Line 35: `this.enabled = this.profilerEnabled || this.heapsnapshotEnabled`. -/
def Plugin.enabled (p : Plugin) : Bool :=
  p.profilerEnabled || p.heapsnapshotEnabled

/-- The behavioural part of the `meta` getter (lines 54–62). -/
structure PluginMeta where
  enabled : Bool
  uploads : List Json

/-- Lines 54–62: the getter reflects the current cumulative state. -/
def Plugin.meta (p : Plugin) : PluginMeta :=
  ⟨p.enabled, p.uploads⟩

/-! ## getSignedUrl (src/index.js lines 111–135)

The signing POST is an external round trip; its result is either a network
failure (the awaited `request` rejects) or a raw response body.  On a body,
`JSON.parse` either throws (malformed input) or yields a value whose
`jwtAccess` property is pushed onto `this.uploads` and whose
`signedRequest` property is returned. -/

def getSignedUrl (uploads : List Json) (signingRes : Except Unit String) :
    Except Unit (List Json × Json) :=
  match signingRes with
  | .error e => .error e
  | .ok body =>
    match jsonParse body with
    | none => .error ()
    | some response =>
      .ok (uploads ++ [jsonGet response ("jwtAccess")],
           jsonGet response ("signedRequest"))

/-! ## postInvoke outcome (src/index.js lines 137–223)

`postInvoke` returns `false` when disabled, otherwise a promise built from
an async executor.  The executor's `try` block awaits `getSignedUrl`,
builds the archive, installs the `data`/`finish`/`entry` handlers and
registers the capture entries; any exception thrown there is caught at
lines 218–221, logged, and `resolve()` is called.  The PUT upload however
runs inside the archive `finish` handler (lines 157–167), an independent
async function outside the `try` block: if that `request` rejects,
`resolve()` on line 166 is never reached, nothing is logged, and the
promise never settles. -/

inductive Outcome where
  | returnedFalse
  | resolved
  | pending

/-- The environment of one postInvoke run: the signing round trip result,
whether some step of the archive assembly inside the try block throws, and
whether the PUT upload request succeeds. -/
structure PostEnv where
  signingRes : Except Unit String
  archiveSeqThrows : Bool
  putOk : Bool

/-- Observable result of one postInvoke run. -/
structure PostResult where
  outcome : Outcome
  uploads : List Json
  putIssued : Bool
  errorLogged : Bool

def postInvoke (p : Plugin) (env : PostEnv) : PostResult :=
  if p.enabled = false then ⟨.returnedFalse, p.uploads, false, false⟩
  else
    match getSignedUrl p.uploads env.signingRes with
    | .error _ => ⟨.resolved, p.uploads, false, true⟩
    | .ok (uploads2, _signedRequestURL) =>
      if env.archiveSeqThrows then ⟨.resolved, uploads2, false, true⟩
      else if env.putOk then ⟨.resolved, uploads2, true, false⟩
      else ⟨.pending, uploads2, true, false⟩

/-! ## Archive entry counting (src/index.js lines 169–178)

`filesCount` is `this.profilerEnabled + this.heapsnapshotEnabled` under
JavaScript boolean-to-number coercion.  The `entry` handler increments
`filesSeen` and calls `archive.finalize()` when the incremented count has
reached `filesCount`.  The archiver emits one `entry` event per registered
entry, emits `finish` only after `finalize`, and the `finish` handler is
what performs the PUT (lines 157–167). -/

structure ArchiveState where
  filesSeen : Nat
  finalizeCalls : Nat

/-- The `archive.on entry` handler (lines 171–178): `filesSeen++`, then
finalize when `filesSeen >= filesCount`. -/
def archiveOnEntry (filesCount : Nat) (st : ArchiveState) : ArchiveState :=
  let seen := st.filesSeen + 1
  ⟨seen, if filesCount ≤ seen then st.finalizeCalls + 1 else st.finalizeCalls⟩

/-- State after `n` entry events have been delivered. -/
def runEntries (filesCount : Nat) : Nat → ArchiveState
  | 0 => ⟨0, 0⟩
  | n + 1 => archiveOnEntry filesCount (runEntries filesCount n)

/-- Line 169: `this.profilerEnabled + this.heapsnapshotEnabled`. -/
def filesCountOf (p : Plugin) : Nat :=
  (if p.profilerEnabled then 1 else 0) + (if p.heapsnapshotEnabled then 1 else 0)

/-- The PUT runs from the `finish` handler, and archiver fires `finish`
exactly when `finalize` has been called, so the upload step is invoked iff
finalize was. -/
def uploadInvoked (st : ArchiveState) : Bool :=
  1 ≤ st.finalizeCalls

/-! ## Heap snapshot streaming (src/index.js lines 187–217)

The two inspector event handlers are translated directly: the
`addHeapSnapshotChunk` handler writes a truthy chunk to the pass-through
stream, and the `reportHeapSnapshotProgress` handler ends the stream when
the third component of the event is `finished = true`.  The driver encodes
the inspector protocol for `HeapProfiler.takeHeapSnapshot` with
`reportProgress: true`: the chunk events and the final progress event are
delivered while the command is in flight, and the command's response
callback — the function that appends the stream to the archive (lines
211–215) — is invoked last, after the snapshot has completed. -/

/-- The event object destructured as `(\x7b chunk \x7d)` on line 200. -/
structure HeapChunkEvent where
  chunk : String

/-- The pass-through stream: chunks written so far, and whether `end` was
called. -/
structure HeapStream where
  written : List String
  ended : Bool

/-- Observable events of the heap capture, in order of occurrence. -/
inductive HeapEv where
  | issue
  | wrote (c : String)
  | streamEnd
  | appendEntry
deriving DecidableEq

/-- Lines 198–206: `if (chunk) heap.write(chunk)`; the empty string models
a falsy chunk. -/
def onAddHeapSnapshotChunk (ev : HeapChunkEvent) (h : HeapStream) :
    HeapStream × List HeapEv :=
  if ev.chunk ≠ "" then (⟨h.written ++ [ev.chunk], h.ended⟩, [.wrote ev.chunk])
  else (h, [])

/-- Lines 189–197: the progress event destructured as `([, , finished])`;
`heap.end()` exactly when finished. -/
def onReportHeapSnapshotProgress (ev : Nat × Nat × Bool) (h : HeapStream) :
    HeapStream × List HeapEv :=
  if ev.2.2 then (⟨h.written, true⟩, [.streamEnd]) else (h, [])

/-- Delivers the chunk events in order, threading stream state and trace. -/
def deliverChunks (chunks : List String) (acc : HeapStream × List HeapEv) :
    HeapStream × List HeapEv :=
  match chunks with
  | [] => acc
  | c :: rest =>
    let st2 := onAddHeapSnapshotChunk ⟨c⟩ acc.1
    deliverChunks rest (st2.1, acc.2 ++ st2.2)

/-- Result of one heap capture: final stream state, event trace, archive
entries registered (entry payload = concatenation of the written chunks,
since the stream has been fully buffered by append time). -/
structure HeapCapture where
  stream : HeapStream
  trace : List HeapEv
  entries : List (String × String)

/-- Lines 207–216: post `takeHeapSnapshot` (the issue event), after which
the inspector delivers every chunk event, then the finished progress
event, then invokes the command's response callback, which appends the
stream to the archive as `profile.heapsnapshot`. -/
def takeHeapSnapshot (chunks : List String) : HeapCapture :=
  let r1 := deliverChunks chunks (⟨[], false⟩, [.issue])
  let r2 := onReportHeapSnapshotProgress (0, 0, true) r1.1
  ⟨r2.1, r1.2 ++ r2.2 ++ [.appendEntry],
   [("profile.heapsnapshot", String.join r2.1.written)]⟩

/-! ## CPU profile capture (src/index.js lines 179–186) -/

/-- The `Profiler.stop` callback: appends one archive entry named
`profile.cpuprofile` whose payload is `JSON.stringify(profile)`. -/
def onProfilerStop (profile : Json) (entries : List (String × String)) :
    List (String × String) :=
  entries ++ [("profile.cpuprofile", jsonStringify profile)]

/-! ## Inspector session and postReport (src/index.js lines 225–227)

Per the Node inspector contract, `Session.disconnect()` closes the session
if one is open and is a no-op on a session that was never connected (or
was already disconnected); it does not throw.  `Session.connect()` fails
only when the session is already connected. -/

structure Session where
  connected : Bool

/-- Total (never-throwing) disconnect, per the inspector contract. -/
def Session.disconnect (s : Session) : Session :=
  { s with connected := false }

/-- Connect fails exactly when already connected. -/
def Session.connect (s : Session) : Except Unit Session :=
  if s.connected then .error () else .ok ⟨true⟩

/-- Lines 225–227: `postReport() \x7b this.inspector.disconnect(); \x7d` —
no guard on `enabled`, no try/catch. -/
def postReport (s : Session) : Session :=
  s.disconnect

/-! ## Theorems -/

/-- C1: for each flag combination with at least one capture enabled, after
the enabled captures have registered their entries the archive has been
finalized exactly once, and after any strictly smaller number of entry
events it has not been finalized at all: finalize fires iff the entries
received equal the enabled capture count. -/
theorem C1_finalize_exactly_once (c h : Bool) (hch : (c || h) = true) :
    (runEntries (filesCountOf (mkPlugin c h)) (filesCountOf (mkPlugin c h))).finalizeCalls = 1 ∧
    ∀ k, k < filesCountOf (mkPlugin c h) →
      (runEntries (filesCountOf (mkPlugin c h)) k).finalizeCalls = 0 := by
  cases c <;> cases h <;> simp_all <;> decide

/-- Witness for C1 with both captures enabled. -/
theorem C1_finalize_exactly_once_witness :
    ((true || true) = true) ∧
    ((runEntries (filesCountOf (mkPlugin true true)) (filesCountOf (mkPlugin true true))).finalizeCalls = 1 ∧
     ∀ k, k < filesCountOf (mkPlugin true true) →
       (runEntries (filesCountOf (mkPlugin true true)) k).finalizeCalls = 0) :=
  ⟨by decide, C1_finalize_exactly_once true true (by decide)⟩

/-- C5 counterexample: with an expected entry count of 0 and no entries
registered, the archive is never finalized, so the upload step — which
runs from the finish handler — is never invoked, contrary to the claim
that it still is. -/
theorem C5_counterexample : uploadInvoked (runEntries 0 0) = false := by
  decide

/-- C5 amended: with a zero expected count, finalize is only reachable
from the entry handler and no entry event ever fires, so the archive is
never finalized and the upload is never invoked; the configuration is
anyway unreachable because postInvoke returns false when both captures
are disabled. -/
theorem C5_zero_count_never_uploads (env : PostEnv) :
    (runEntries 0 0).finalizeCalls = 0 ∧
    uploadInvoked (runEntries 0 0) = false ∧
    (postInvoke (mkPlugin false false) env).outcome = .returnedFalse := by
  refine ⟨rfl, rfl, rfl⟩

/-- C6: postReport unconditionally disconnects the session (also when it
was never connected), cannot throw (it is a total function in the model,
per the inspector contract that disconnect on an unconnected session is a
no-op), is idempotent, and does not block a subsequent connect. -/
theorem C6_postReport_disconnects (s : Session) :
    (postReport s).connected = false ∧
    postReport (postReport s) = postReport s ∧
    (postReport s).connect = .ok ⟨true⟩ :=
  ⟨rfl, rfl, rfl⟩

/-- C7: for a heap snapshot source emitting chunks `a` then `b` and then a
finished progress event, the archive's `profile.heapsnapshot` entry
payload is `ab`, the chunks are written in arrival order, the stream ends
on the finished event and was still open after the last chunk. -/
theorem C7_heap_payload_ab :
    (takeHeapSnapshot ["a", "b"]).entries = [("profile.heapsnapshot", "ab")] ∧
    (takeHeapSnapshot ["a", "b"]).stream.written = ["a", "b"] ∧
    (takeHeapSnapshot ["a", "b"]).stream.ended = true ∧
    (deliverChunks ["a", "b"] (⟨[], false⟩, [.issue])).1.ended = false :=
  ⟨rfl, rfl, rfl, rfl⟩

/-- C4 counterexample: in the capture of chunks `a` then `b`, the archive
append of the heap stream does not precede the end of the stream — the
entry is handed to the archive only after the snapshot completed, not
immediately when the request was issued. -/
theorem C4_counterexample :
    ¬ ((takeHeapSnapshot ["a", "b"]).trace.indexOf .appendEntry <
       (takeHeapSnapshot ["a", "b"]).trace.indexOf .streamEnd) := by
  decide

/-- Closed form of chunk delivery: the stream accumulates exactly the
truthy chunks in order and its ended flag is untouched, and the trace
grows by one wrote event per truthy chunk. -/
theorem deliverChunks_spec (chunks : List String) (st : HeapStream) (tr : List HeapEv) :
    deliverChunks chunks (st, tr) =
      (⟨st.written ++ chunks.filter (fun c => c ≠ ""), st.ended⟩,
       tr ++ (chunks.filter (fun c => c ≠ "")).map HeapEv.wrote) := by
  induction chunks generalizing st tr with
  | nil => simp [deliverChunks]
  | cons c rest ih =>
    by_cases hc : c = ""
    · simp [deliverChunks, onAddHeapSnapshotChunk, hc, ih]
    · simp [deliverChunks, onAddHeapSnapshotChunk, hc, ih]

/-- C4 amended: for every chunk sequence, the capture trace is the issue
of the snapshot request, then the chunk writes, then the end of the
stream, and only then the hand-off of the stream to the archive: the
append happens in the command's response callback after the snapshot has
completed, with the payload fully buffered and intact. -/
theorem C4_append_after_stream_end (chunks : List String) :
    (takeHeapSnapshot chunks).trace =
      [.issue] ++ (chunks.filter (fun c => c ≠ "")).map HeapEv.wrote ++
        [.streamEnd, .appendEntry] ∧
    (takeHeapSnapshot chunks).entries =
      [("profile.heapsnapshot", String.join (chunks.filter (fun c => c ≠ "")))] := by
  constructor <;>
    simp [takeHeapSnapshot, deliverChunks_spec, onReportHeapSnapshotProgress]

/-- C2: evaluating postInvoke at a run where the signing round trip
succeeds and the PUT upload request fails shows the promise never settles
and nothing is logged: the rejection happens inside the archive finish
handler, outside the try/catch, so `resolve()` is never reached — the
claim that every error in the upload sequence is caught, logged and
resolved fails for the PUT. -/
theorem C2_put_failure_leaves_promise_pending :
    (postInvoke (mkPlugin true false)
      ⟨.ok ("\x7b\"signedRequest\":\"https://x/y\",\"jwtAccess\":\"tok1\"\x7d"),
       false, false⟩).outcome = .pending ∧
    (postInvoke (mkPlugin true false)
      ⟨.ok ("\x7b\"signedRequest\":\"https://x/y\",\"jwtAccess\":\"tok1\"\x7d"),
       false, false⟩).errorLogged = false :=
  ⟨rfl, rfl⟩

/-- C3: if the signing round trip fails (network error) or its response
body is malformed JSON, the thrown error is caught and logged, postInvoke
resolves, and no PUT request is ever issued. -/
theorem C3_signing_failure_resolves_without_put (p : Plugin) (env : PostEnv)
    (hen : p.enabled = true)
    (hfail : env.signingRes = .error () ∨
      ∃ b, env.signingRes = .ok b ∧ jsonParse b = none) :
    (postInvoke p env).outcome = .resolved ∧
    (postInvoke p env).putIssued = false ∧
    (postInvoke p env).errorLogged = true := by
  rcases hfail with hf | ⟨b, hb, hpb⟩
  · simp [postInvoke, getSignedUrl, hen, hf]
  · simp [postInvoke, getSignedUrl, hen, hb, hpb]

/-- Witness for C3 at a network failure of the signing request. -/
theorem C3_signing_failure_resolves_without_put_witness :
    (mkPlugin true false).enabled = true ∧
    ((postInvoke (mkPlugin true false) ⟨.error (), false, true⟩).outcome = .resolved ∧
     (postInvoke (mkPlugin true false) ⟨.error (), false, true⟩).putIssued = false ∧
     (postInvoke (mkPlugin true false) ⟨.error (), false, true⟩).errorLogged = true) :=
  ⟨rfl, C3_signing_failure_resolves_without_put (mkPlugin true false)
    ⟨.error (), false, true⟩ rfl (Or.inl rfl)⟩

/-- C8: the Profiler.stop callback registers exactly one archive entry,
named `profile.cpuprofile`, whose payload is the JSON serialization of the
returned profile; when that serialization parses back to the profile, the
payload JSON-decodes to the original object. -/
theorem C8_cpuprofile_entry (profile : Json)
    (hrt : jsonParse (jsonStringify profile) = some profile) :
    onProfilerStop profile [] = [("profile.cpuprofile", jsonStringify profile)] ∧
    ∀ e ∈ onProfilerStop profile [],
      e.1 = "profile.cpuprofile" ∧ jsonParse e.2 = some profile := by
  refine ⟨rfl, ?_⟩
  intro e he
  simp only [onProfilerStop, List.nil_append, List.mem_singleton] at he
  subst he
  exact ⟨rfl, hrt⟩

/-- Witness for C8 at the profile object with an empty nodes array. -/
theorem C8_cpuprofile_entry_witness :
    jsonParse (jsonStringify (Json.obj [("nodes", Json.arr [])])) =
      some (Json.obj [("nodes", Json.arr [])]) ∧
    (onProfilerStop (Json.obj [("nodes", Json.arr [])]) [] =
      [("profile.cpuprofile", jsonStringify (Json.obj [("nodes", Json.arr [])]))] ∧
     ∀ e ∈ onProfilerStop (Json.obj [("nodes", Json.arr [])]) [],
       e.1 = "profile.cpuprofile" ∧
       jsonParse e.2 = some (Json.obj [("nodes", Json.arr [])])) :=
  ⟨rfl, C8_cpuprofile_entry (Json.obj [("nodes", Json.arr [])]) rfl⟩

/-- C9: one run of postInvoke on a fresh plugin whose signing response
parses with `jwtAccess = tok1` completes resolved with the uploads
metadata equal to the one-element list holding `tok1` — the credential is
recorded exactly once. -/
theorem C9_single_token_recorded (body : String) (response : Json) (env : PostEnv)
    (hparse : jsonParse body = some response)
    (hjwt : jsonGet response ("jwtAccess") = .str ("tok1"))
    (hsig : env.signingRes = .ok body)
    (harch : env.archiveSeqThrows = false) (hput : env.putOk = true) :
    (postInvoke (mkPlugin true false) env).outcome = .resolved ∧
    (Plugin.meta ⟨true, false, (postInvoke (mkPlugin true false) env).uploads⟩).uploads =
      [.str ("tok1")] := by
  simp [postInvoke, getSignedUrl, hsig, hparse, hjwt, harch, hput, mkPlugin,
    Plugin.enabled, Plugin.meta]

/-- Witness for C9 at the concrete signing response of the spec. -/
theorem C9_single_token_recorded_witness :
    jsonParse ("\x7b\"signedRequest\":\"https://x/y\",\"jwtAccess\":\"tok1\"\x7d") =
      some (Json.obj [("signedRequest", Json.str ("https://x/y")),
                      ("jwtAccess", Json.str ("tok1"))]) ∧
    jsonGet (Json.obj [("signedRequest", Json.str ("https://x/y")),
                       ("jwtAccess", Json.str ("tok1"))]) ("jwtAccess") =
      Json.str ("tok1") ∧
    ((postInvoke (mkPlugin true false)
        ⟨.ok ("\x7b\"signedRequest\":\"https://x/y\",\"jwtAccess\":\"tok1\"\x7d"),
         false, true⟩).outcome = .resolved ∧
     (Plugin.meta ⟨true, false,
        (postInvoke (mkPlugin true false)
          ⟨.ok ("\x7b\"signedRequest\":\"https://x/y\",\"jwtAccess\":\"tok1\"\x7d"),
           false, true⟩).uploads⟩).uploads = [.str ("tok1")]) :=
  ⟨rfl, rfl,
   C9_single_token_recorded
     ("\x7b\"signedRequest\":\"https://x/y\",\"jwtAccess\":\"tok1\"\x7d")
     (Json.obj [("signedRequest", Json.str ("https://x/y")),
                ("jwtAccess", Json.str ("tok1"))])
     ⟨.ok ("\x7b\"signedRequest\":\"https://x/y\",\"jwtAccess\":\"tok1\"\x7d"),
      false, true⟩ rfl rfl rfl rfl rfl⟩

/-- C10: the credential is pushed onto uploads inside getSignedUrl, as
soon as the signing response is parsed and before the archive is built or
the PUT attempted; hence whenever signing succeeds but the archive
assembly throws or the PUT fails, the uploads list still holds the
credential of the never-completed upload. -/
theorem C10_credential_retained_on_late_failure (p : Plugin) (env : PostEnv)
    (body : String) (response : Json)
    (hen : p.enabled = true)
    (hsig : env.signingRes = .ok body)
    (hparse : jsonParse body = some response)
    (hfail : env.archiveSeqThrows = true ∨ env.putOk = false) :
    (postInvoke p env).uploads = p.uploads ++ [jsonGet response ("jwtAccess")] := by
  rcases hfail with hf | hf <;>
    by_cases ha : env.archiveSeqThrows <;>
    simp_all [postInvoke, getSignedUrl]

/-- Witness for C10: signing succeeds with the spec's response, the
archive assembly then throws; the token is already recorded. -/
theorem C10_credential_retained_on_late_failure_witness :
    (mkPlugin true false).enabled = true ∧
    jsonParse ("\x7b\"signedRequest\":\"https://x/y\",\"jwtAccess\":\"tok1\"\x7d") =
      some (Json.obj [("signedRequest", Json.str ("https://x/y")),
                      ("jwtAccess", Json.str ("tok1"))]) ∧
    (postInvoke (mkPlugin true false)
       ⟨.ok ("\x7b\"signedRequest\":\"https://x/y\",\"jwtAccess\":\"tok1\"\x7d"),
        true, true⟩).uploads =
      (mkPlugin true false).uploads ++
        [jsonGet (Json.obj [("signedRequest", Json.str ("https://x/y")),
                            ("jwtAccess", Json.str ("tok1"))]) ("jwtAccess")] :=
  ⟨rfl, rfl,
   C10_credential_retained_on_late_failure (mkPlugin true false)
     ⟨.ok ("\x7b\"signedRequest\":\"https://x/y\",\"jwtAccess\":\"tok1\"\x7d"),
      true, true⟩
     ("\x7b\"signedRequest\":\"https://x/y\",\"jwtAccess\":\"tok1\"\x7d")
     (Json.obj [("signedRequest", Json.str ("https://x/y")),
                ("jwtAccess", Json.str ("tok1"))])
     rfl rfl rfl (Or.inl rfl)⟩

end Profiler
